import Mathlib

/-! # Verification of the udplogviewer ingestion-and-store pipeline

Shallow embedding of `src/udplogreceiver.py`: the frame decoder
(`convert_datagram`), the drain loop (`UdpHandler.readDatagrams`), the log
store (`LogRecordModel`) and the filter view (a `QSortFilterProxyModel`
configured with `setFilterKeyColumn(3)` and `setFilterFixedString`).

Modelling conventions:
* Byte buffers are `List Nat` (each entry one byte).
* Python floats (`created` timestamps) are modelled at second precision as
  integers; the display conversion `time.strftime(.., time.gmtime(t))` is
  implemented for non-negative whole-second timestamps.
* Python exceptions become `Except` errors.  `struct.error` (buffer shorter
  than 4 bytes) and the `assert slen == len(chunk)` failure are both framing
  failures and map to `ConvError.FramingError`, matching the error taxonomy
  of the design; `pickle` failures map to `ConvError.DecodeError`.
* `pickle.dumps` / `pickle.loads` and Qt classes are language/runtime
  facilities, not code of this repository; they are modelled executably,
  faithful to their documented behaviour (pickle round-trips a dict of
  string keys to scalar/string values; the sort/filter proxy keeps, in
  source order, exactly the source rows whose display text in the filter
  key column contains the fixed filter string, case sensitively).
-/

namespace Udplog

/-- A scalar value occurring in a decoded field mapping (Python object). -/
inductive Value where
  | vnone : Value
  | int (n : Int) : Value
  | str (s : String) : Value
deriving DecidableEq, Repr

/-- Python `str()` of a scalar value. -/
def pyStr : Value → String
  | Value.vnone => "None"
  | Value.int n => toString n
  | Value.str s => s

/-- A decoded log event: the four mandatory display fields plus an explicit
bag for any additional metadata present in the decoded mapping. -/
structure LogRecord where
  created : Value
  levelname : Value
  name : Value
  msg : Value
  extra : List (String × Value)
deriving DecidableEq, Repr

/-! ## Pickle model

Modelled from the spec: the payload serialization is implementation-defined
(Python `pickle` in the source, which is not part of this repository); it
must round-trip string keys to arbitrary scalar/string values.  We use a
simple executable length-prefixed tag encoding of an association list. -/

/-- Encode a string as its character count followed by its code points. -/
def encodeString (s : String) : List Nat :=
  s.data.length :: s.data.map Char.toNat

/-- Encode one scalar value with a leading tag. -/
def encodeValue : Value → List Nat
  | Value.vnone => [0]
  | Value.int i => if 0 ≤ i then [1, 0, i.toNat] else [1, 1, (-i).toNat]
  | Value.str s => 2 :: encodeString s

/-- Encode the entries of a field mapping, in order. -/
def encodeEntries : List (String × Value) → List Nat
  | [] => []
  | (k, v) :: rest => encodeString k ++ encodeValue v ++ encodeEntries rest

/-- Model of `pickle.dumps` on a dict with string keys and scalar values. -/
def pickleDumps (obj : List (String × Value)) : List Nat :=
  obj.length :: encodeEntries obj

/-- Decode a string; fails on truncated input. -/
def decodeString : List Nat → Option (String × List Nat)
  | [] => Option.none
  | n :: rest =>
    if n ≤ rest.length then
      some (String.mk ((rest.take n).map Char.ofNat), rest.drop n)
    else Option.none

/-- Decode one tagged scalar value. -/
def decodeValue : List Nat → Option (Value × List Nat)
  | 0 :: rest => some (Value.vnone, rest)
  | 1 :: 0 :: n :: rest => some (Value.int (Int.ofNat n), rest)
  | 1 :: 1 :: n :: rest => some (Value.int (-(Int.ofNat n)), rest)
  | 2 :: rest => (decodeString rest).map fun p => (Value.str p.1, p.2)
  | _ => Option.none

/-- Decode `n` key/value entries. -/
def decodeEntries : Nat → List Nat → Option (List (String × Value) × List Nat)
  | 0, rest => some ([], rest)
  | n + 1, rest => do
    let (k, r1) ← decodeString rest
    let (v, r2) ← decodeValue r1
    let (m, r3) ← decodeEntries n r2
    some ((k, v) :: m, r3)

/-- Model of `pickle.loads`: fails unless the whole payload is one mapping. -/
def pickleLoads (payload : List Nat) : Option (List (String × Value)) :=
  match payload with
  | [] => Option.none
  | n :: rest =>
    match decodeEntries n rest with
    | some (m, []) => some m
    | _ => Option.none

/-! ## Frame decoder (`convert_datagram`) -/

/-- The two per-datagram failure classes of the design's error taxonomy. -/
inductive ConvError where
  | FramingError : ConvError
  | DecodeError : ConvError
deriving DecidableEq, Repr

/-- `struct.unpack` of a big-endian unsigned 32-bit integer. -/
def be32 (b0 b1 b2 b3 : Nat) : Nat :=
  ((b0 * 256 + b1) * 256 + b2) * 256 + b3

/-- `struct.pack` of a big-endian unsigned 32-bit integer. -/
def be32encode (n : Nat) : List Nat :=
  [n / 16777216 % 256, n / 65536 % 256, n / 256 % 256, n % 256]

/-- Wire encoding of one datagram: 4-byte big-endian length prefix followed
by the payload. -/
def frame (payload : List Nat) : List Nat :=
  be32encode payload.length ++ payload

/-- The declared length read from the 4-byte prefix (0 on short buffers). -/
def declaredLen : List Nat → Nat
  | b0 :: b1 :: b2 :: b3 :: _ => be32 b0 b1 b2 b3
  | _ => 0

/-- Model of `logging.makeLogRecord(obj)` (a language-runtime facility):
build a record from runtime defaults, then override every attribute that
appears in the mapping.  The runtime defaults are `created = time.time()`
(the current time, passed here as `now`), `levelname = "Level None"`
(`getLevelName(None)`), `name = None` and `msg = ""`; keys other than the
four mandatory fields land in the metadata bag. -/
def makeLogRecord (now : Int) (obj : List (String × Value)) : LogRecord where
  created := (List.lookup "created" obj).getD (Value.int now)
  levelname := (List.lookup "levelname" obj).getD (Value.str "Level None")
  name := (List.lookup "name" obj).getD Value.vnone
  msg := (List.lookup "msg" obj).getD (Value.str "")
  extra := obj.filter fun kv =>
    kv.1 ≠ "created" ∧ kv.1 ≠ "levelname" ∧ kv.1 ≠ "name" ∧ kv.1 ≠ "msg"

/-- `convert_datagram(chunk)`: unpack the big-endian length prefix
(`struct.error` on a buffer shorter than 4 bytes), assert that the declared
length equals the remaining byte count, then unpickle the payload and
materialise a log record.  `now` stands for the wall clock read by the
runtime when a `created` key is absent. -/
def convert_datagram (now : Int) (chunk : List Nat) : Except ConvError LogRecord :=
  match chunk with
  | b0 :: b1 :: b2 :: b3 :: rest =>
    if be32 b0 b1 b2 b3 = rest.length then
      match pickleLoads rest with
      | some obj => Except.ok (makeLogRecord now obj)
      | Option.none => Except.error ConvError.DecodeError
    else Except.error ConvError.FramingError
  | _ => Except.error ConvError.FramingError

/-! ## Log store (`LogRecordModel`) -/

/-- The mutable state of `LogRecordModel`: the ordered record list. -/
structure LogRecordModel where
  records : List LogRecord
deriving DecidableEq, Repr

/-- The fixed display columns `self.cols`. -/
def cols : List String := ["created", "levelname", "name", "msg"]

/-- `add_records`: early-return on an empty batch, otherwise extend the
record list and emit `stats_changed` with the formatted new total.  Returns
the new state together with the list of emitted signal payloads. -/
def LogRecordModel.add_records (m : LogRecordModel) (records : List LogRecord) :
    LogRecordModel × List String :=
  if records.isEmpty then (m, [])
  else
    let m2 : LogRecordModel := { records := m.records ++ records }
    (m2, [toString m2.records.length ++ " records"])

/-- `rowCount`: the number of stored records. -/
def LogRecordModel.rowCount (m : LogRecordModel) : Nat :=
  m.records.length

/-- `getattr(record, attr)` for the attributes this model reads. -/
def getattr (r : LogRecord) (attr : String) : Option Value :=
  if attr = "created" then some r.created
  else if attr = "levelname" then some r.levelname
  else if attr = "name" then some r.name
  else if attr = "msg" then some r.msg
  else List.lookup attr r.extra

/-- Days-since-epoch to civil (year, month, day), for dates from 1970 on. -/
def civilFromDays (days : Nat) : Nat × Nat × Nat :=
  let z := days + 719468
  let era := z / 146097
  let doe := z % 146097
  let yoe := (doe - doe / 1460 + doe / 36524 - doe / 146096) / 365
  let y := yoe + era * 400
  let doy := doe - (365 * yoe + yoe / 4 - yoe / 100)
  let mp := (5 * doy + 2) / 153
  let d := doy - (153 * mp + 2) / 5 + 1
  let m := if mp < 10 then mp + 3 else mp - 9
  (if m ≤ 2 then y + 1 else y, m, d)

/-- Zero-pad to two digits. -/
def pad2 (n : Nat) : String :=
  if n < 10 then "0" ++ toString n else toString n

/-- Zero-pad to four digits. -/
def pad4 (n : Nat) : String :=
  if n < 10 then "000" ++ toString n
  else if n < 100 then "00" ++ toString n
  else if n < 1000 then "0" ++ toString n
  else toString n

/-- `conv_time(t)`, the stored conversion for the `created` column:
`time.strftime(%Y-%m-%d %H:%M:%S, time.gmtime(t))`, modelled for
non-negative whole-second timestamps. -/
def conv_time (t : Nat) : String :=
  let ymd := civilFromDays (t / 86400)
  let rem := t % 86400
  pad4 ymd.1 ++ "-" ++ pad2 ymd.2.1 ++ "-" ++ pad2 ymd.2.2 ++ " " ++
    pad2 (rem / 3600) ++ ":" ++ pad2 (rem % 3600 / 60) ++ ":" ++ pad2 (rem % 60)

/-- Apply `self.conv_map` (which holds only `created ↦ conv_time`) and then
`str(v)`.  `conv_time` on a value that is not a non-negative number has no
defined result (a runtime `TypeError` in the source), modelled as `none`. -/
def display (attr : String) (v : Value) : Option String :=
  if attr = "created" then
    match v with
    | Value.int i => if 0 ≤ i then some (conv_time i.toNat) else Option.none
    | _ => Option.none
  else some (pyStr v)

/-- `LogRecordModel.data` at `DisplayRole`: `None` on an invalid index,
otherwise the converted, stringified attribute of the indexed record. -/
def LogRecordModel.data (m : LogRecordModel) (row col : Nat) : Option String :=
  match m.records[row]?, cols[col]? with
  | some record, some attr => (getattr record attr).bind (display attr)
  | _, _ => Option.none

/-- A sequence of `add_records` calls, keeping only the store state. -/
def addBatches (m : LogRecordModel) (bs : List (List LogRecord)) : LogRecordModel :=
  bs.foldl (fun st b => (st.add_records b).1) m

/-! ## Drain loop (`UdpHandler.readDatagrams`) -/

/-- The list comprehension `[convert_datagram(d) for d in datagrams]`:
datagrams are decoded left to right and the first raised exception
propagates, discarding every decoded record. -/
def decodeAll (now : Int) : List (List Nat) → Except ConvError (List LogRecord)
  | [] => Except.ok []
  | d :: ds =>
    match convert_datagram now d, decodeAll now ds with
    | Except.ok r, Except.ok rs => Except.ok (r :: rs)
    | Except.error e, _ => Except.error e
    | _, Except.error e => Except.error e

/-- One `readDatagrams` invocation over the drained datagrams: decode them
all, then hand the batch to `add_records`.  Returns the resulting store
state, the emitted signal payloads, and the uncaught exception if decoding
raised one (in which case `add_records` is never reached and the store is
untouched). -/
def readDatagramsRun (now : Int) (datagrams : List (List Nat)) (m : LogRecordModel) :
    LogRecordModel × List String × Option ConvError :=
  match decodeAll now datagrams with
  | Except.ok records =>
    let r := m.add_records records
    (r.1, r.2, Option.none)
  | Except.error e => (m, [], some e)

/-! ## Filter view (`QSortFilterProxyModel`)

Modelled from the documented Qt semantics of the configuration made in
`UdpLogReceiver.__init__`: `setFilterKeyColumn(3)` with
`setFilterFixedString(pattern)` accepts exactly the source rows whose
display text in column 3 contains `pattern` as a case-sensitive substring,
and the proxy presents accepted rows in source order. -/

/-- Case-sensitive substring test: some suffix of `hay` starts with `pat`. -/
def strContains (hay pat : String) : Bool :=
  (List.range (hay.data.length + 1)).any fun i => pat.data.isPrefixOf (hay.data.drop i)

/-- `filterAcceptsRow` for a fixed-string filter on key column 3. -/
def filterAcceptsRow (pattern : String) (m : LogRecordModel) (row : Nat) : Bool :=
  match m.data row 3 with
  | some s => strContains s pattern
  | Option.none => strContains "" pattern

/-- The proxy's row mapping: accepted source rows, in source order. -/
def acceptedRows (pattern : String) (m : LogRecordModel) : List Nat :=
  (List.range m.rowCount).filter (filterAcceptsRow pattern m)

/-- The proxy's row count after `setFilterFixedString(pattern)`. -/
def visibleRowCount (pattern : String) (m : LogRecordModel) : Nat :=
  (acceptedRows pattern m).length

/-- The source records visible through the proxy, by increasing proxy row. -/
def visibleRecords (pattern : String) (m : LogRecordModel) : List LogRecord :=
  (acceptedRows pattern m).filterMap fun r => m.records[r]?

/-! ## Concrete sample data used by witnesses and counterexamples -/

/-- A well-formed field mapping for a first sample event. -/
def sampleObj1 : List (String × Value) :=
  [("created", Value.int 1700000000), ("levelname", Value.str "INFO"),
   ("name", Value.str "app"), ("msg", Value.str "starting up")]

/-- A well-formed field mapping for a second sample event. -/
def sampleObj3 : List (String × Value) :=
  [("created", Value.int 1700000005), ("levelname", Value.str "ERROR"),
   ("name", Value.str "app"), ("msg", Value.str "failed to connect")]

/-- A well-formed datagram carrying `sampleObj1`. -/
def goodDatagram1 : List Nat := frame (pickleDumps sampleObj1)

/-- A well-formed datagram carrying `sampleObj3`. -/
def goodDatagram3 : List Nat := frame (pickleDumps sampleObj3)

/-- A malformed datagram: the prefix declares 9 payload bytes but only 3
follow. -/
def badDatagram2 : List Nat := [0, 0, 0, 9, 1, 2, 3]

/-- The record decoded from `sampleObj1` (no clock needed: `created` is
present). -/
def sampleRecord1 : LogRecord := makeLogRecord 0 sampleObj1

/-- The record decoded from `sampleObj3`. -/
def sampleRecord3 : LogRecord := makeLogRecord 0 sampleObj3

/-- The field mapping a producer serializes for record `R`: the four
mandatory fields followed by any extra metadata. -/
def recordToObj (R : LogRecord) : List (String × Value) :=
  ("created", R.created) :: ("levelname", R.levelname) :: ("name", R.name) ::
    ("msg", R.msg) :: R.extra

/-! ## Helper lemmas -/

theorem decodeString_encodeString (s : String) (t : List Nat) :
    decodeString (encodeString s ++ t) = some (s, t) := by
  simp only [encodeString, decodeString, List.cons_append]
  rw [if_pos (by simp)]
  simp [List.take_append_of_le_length, List.drop_append_of_le_length,
    List.take_of_length_le, List.map_map]
  cases s with
  | mk data =>
    congr 1
    calc List.map (Char.ofNat ∘ Char.toNat) data = List.map id data := by
          apply List.map_congr_left; intro c _; simp [Char.ofNat_toNat]
      _ = data := List.map_id data

theorem decodeValue_encodeValue (v : Value) (t : List Nat) :
    decodeValue (encodeValue v ++ t) = some (v, t) := by
  cases v with
  | vnone => rfl
  | int i =>
    by_cases h : 0 ≤ i
    · simp only [encodeValue, if_pos h, List.cons_append, List.nil_append, decodeValue]
      simp [Int.toNat_of_nonneg h]
    · simp only [encodeValue, if_neg h, List.cons_append, List.nil_append, decodeValue]
      have h2 : Int.ofNat (-i).toNat = -i := Int.toNat_of_nonneg (by omega)
      simp only [Option.some.injEq, Prod.mk.injEq, and_true, h2, Value.int.injEq, neg_neg]
  | str s =>
    simp [encodeValue, decodeValue, decodeString_encodeString]

theorem decodeEntries_encodeEntries (m : List (String × Value)) (t : List Nat) :
    decodeEntries m.length (encodeEntries m ++ t) = some (m, t) := by
  induction m generalizing t with
  | nil => rfl
  | cons kv rest ih =>
    obtain ⟨k, v⟩ := kv
    simp only [encodeEntries, List.length_cons, List.append_assoc]
    simp [decodeEntries, decodeString_encodeString, decodeValue_encodeValue, ih]

theorem pickleLoads_pickleDumps (obj : List (String × Value)) :
    pickleLoads (pickleDumps obj) = some obj := by
  have h := decodeEntries_encodeEntries obj []
  simp only [List.append_nil] at h
  simp [pickleLoads, pickleDumps, h]

theorem be32_be32encode (n : Nat) (h : n < 4294967296) :
    be32 (n / 16777216 % 256) (n / 65536 % 256) (n / 256 % 256) (n % 256) = n := by
  simp only [be32]
  omega

theorem convert_datagram_frame (now : Int) (payload : List Nat)
    (h : payload.length < 4294967296) :
    convert_datagram now (frame payload) =
      match pickleLoads payload with
      | some obj => Except.ok (makeLogRecord now obj)
      | Option.none => Except.error ConvError.DecodeError := by
  have hfr : frame payload = payload.length / 16777216 % 256 ::
      payload.length / 65536 % 256 :: payload.length / 256 % 256 ::
      payload.length % 256 :: payload := rfl
  rw [hfr]
  simp only [convert_datagram, be32_be32encode payload.length h, eq_self_iff_true, if_true]

theorem decodeAll_error_of_mem (now : Int) (ds : List (List Nat))
    (h : ∃ d ∈ ds, ∃ e, convert_datagram now d = Except.error e) :
    ∃ e, decodeAll now ds = Except.error e := by
  induction ds with
  | nil => simp at h
  | cons d rest ih =>
    obtain ⟨d0, hmem, e0, he⟩ := h
    rcases List.mem_cons.mp hmem with rfl | hmem2
    · exact ⟨e0, by simp [decodeAll, he]⟩
    · obtain ⟨e2, h2⟩ := ih ⟨d0, hmem2, e0, he⟩
      cases hc : convert_datagram now d with
      | ok r => exact ⟨e2, by simp [decodeAll, hc, h2]⟩
      | error e1 => exact ⟨e1, by simp [decodeAll, hc]⟩

theorem add_records_fst_records (m : LogRecordModel) (b : List LogRecord) :
    (m.add_records b).1.records = m.records ++ b := by
  by_cases hb : b.isEmpty
  · have : b = [] := List.isEmpty_iff.mp hb
    subst this
    simp [LogRecordModel.add_records]
  · simp [LogRecordModel.add_records, hb]

theorem data_cons_zero_msg (a : LogRecord) (t : List LogRecord) :
    LogRecordModel.data ⟨a :: t⟩ 0 3 = some (pyStr a.msg) := by
  simp only [LogRecordModel.data, List.getElem?_cons_zero, cols]
  rfl

theorem data_cons_succ (a : LogRecord) (t : List LogRecord) (r c : Nat) :
    LogRecordModel.data ⟨a :: t⟩ (r + 1) c = LogRecordModel.data ⟨t⟩ r c := by
  simp [LogRecordModel.data]

theorem filterAcceptsRow_cons_zero (p : String) (a : LogRecord) (t : List LogRecord) :
    filterAcceptsRow p ⟨a :: t⟩ 0 = strContains (pyStr a.msg) p := by
  simp [filterAcceptsRow, data_cons_zero_msg]

theorem filterAcceptsRow_cons_succ (p : String) (a : LogRecord) (t : List LogRecord) (r : Nat) :
    filterAcceptsRow p ⟨a :: t⟩ (r + 1) = filterAcceptsRow p ⟨t⟩ r := by
  simp [filterAcceptsRow, data_cons_succ]

theorem strContains_empty (s : String) : strContains s "" = true := by
  simp only [strContains, List.any_eq_true]
  exact ⟨0, by simp, by simp [List.isPrefixOf]⟩

theorem visible_eq_filter (p : String) (l : List LogRecord) :
    visibleRecords p ⟨l⟩ = l.filter (fun r => strContains (pyStr r.msg) p) ∧
    visibleRowCount p ⟨l⟩ = (l.filter (fun r => strContains (pyStr r.msg) p)).length := by
  induction l with
  | nil => exact ⟨rfl, rfl⟩
  | cons a t ih =>
    have hsucc : (filterAcceptsRow p ⟨a :: t⟩ ∘ Nat.succ) = filterAcceptsRow p ⟨t⟩ := by
      funext r
      exact filterAcceptsRow_cons_succ p a t r
    have hget : ((fun r => (a :: t)[r]?) ∘ Nat.succ) = (fun r => t[r]?) := by
      funext r
      simp
    have hacc : acceptedRows p ⟨a :: t⟩ =
        (if strContains (pyStr a.msg) p then [0] else []) ++
          (acceptedRows p ⟨t⟩).map Nat.succ := by
      simp only [acceptedRows, LogRecordModel.rowCount, List.length_cons,
        List.range_succ_eq_map, List.filter_cons, filterAcceptsRow_cons_zero,
        List.filter_map, hsucc]
      by_cases hb : strContains (pyStr a.msg) p <;> simp [hb]
    constructor
    · rw [visibleRecords, hacc, List.filter_cons]
      by_cases hb : strContains (pyStr a.msg) p <;>
        simp [hb, List.filterMap_cons, List.filterMap_map, hget, ← ih.1, visibleRecords]
    · rw [visibleRowCount, hacc, List.filter_cons]
      by_cases hb : strContains (pyStr a.msg) p <;>
        simp [hb, ← ih.2, visibleRowCount]

/-! ## Claims -/

/-- Claim C1, counterexample.  In the batch of three datagrams
`[goodDatagram1, badDatagram2, goodDatagram3]`, where the second has a bad
length prefix and the other two decode to `sampleRecord1` and
`sampleRecord3`, the drain leaves the store empty and emits nothing: the
well-formed first and third records are NOT appended, contradicting the
claimed skip-and-continue policy. -/
theorem readDatagrams_abort_counterexample :
    convert_datagram 0 goodDatagram1 = Except.ok sampleRecord1 ∧
    convert_datagram 0 badDatagram2 = Except.error ConvError.FramingError ∧
    convert_datagram 0 goodDatagram3 = Except.ok sampleRecord3 ∧
    readDatagramsRun 0 [goodDatagram1, badDatagram2, goodDatagram3] ⟨[]⟩ =
      (⟨[]⟩, [], some ConvError.FramingError) :=
  ⟨rfl, rfl, rfl, rfl⟩

/-- Claim C1, amended: a decode failure of a single malformed datagram in a
drain invocation aborts the whole batch.  Whenever some pending datagram
fails to decode, `readDatagrams` appends nothing (the store is unchanged and
no notification is emitted) and the decode exception propagates; the
well-formed datagrams of that batch are lost. -/
theorem readDatagrams_aborts_on_malformed (now : Int) (ds : List (List Nat))
    (m : LogRecordModel)
    (h : ∃ d ∈ ds, ∃ e, convert_datagram now d = Except.error e) :
    (readDatagramsRun now ds m).1 = m ∧ (readDatagramsRun now ds m).2.1 = [] ∧
    (readDatagramsRun now ds m).2.2.isSome = true := by
  obtain ⟨e, he⟩ := decodeAll_error_of_mem now ds h
  simp [readDatagramsRun, he]

/-- Claim C1, witness for the amended theorem at the concrete 3-datagram
batch whose second datagram has a bad length prefix. -/
theorem readDatagrams_aborts_on_malformed_witness :
    (readDatagramsRun 0 [goodDatagram1, badDatagram2, goodDatagram3] ⟨[]⟩).1 = ⟨[]⟩ ∧
    (readDatagramsRun 0 [goodDatagram1, badDatagram2, goodDatagram3] ⟨[]⟩).2.1 = [] ∧
    (readDatagramsRun 0 [goodDatagram1, badDatagram2, goodDatagram3] ⟨[]⟩).2.2.isSome = true :=
  readDatagrams_aborts_on_malformed 0 [goodDatagram1, badDatagram2, goodDatagram3] ⟨[]⟩
    ⟨badDatagram2, List.Mem.tail _ (List.Mem.head _), ConvError.FramingError, rfl⟩

/-- Claim C2: every buffer shorter than 4 bytes, and every buffer whose
4-byte big-endian declared length differs from the remaining byte count
(including extra trailing bytes), makes `convert_datagram` fail with a
framing error and produce no record. -/
theorem convert_datagram_framing_strict (now : Int) (chunk : List Nat)
    (h : chunk.length < 4 ∨ declaredLen chunk ≠ chunk.length - 4) :
    convert_datagram now chunk = Except.error ConvError.FramingError := by
  match chunk with
  | [] => rfl
  | [b0] => rfl
  | [b0, b1] => rfl
  | [b0, b1, b2] => rfl
  | b0 :: b1 :: b2 :: b3 :: rest =>
    have hne : be32 b0 b1 b2 b3 ≠ rest.length := by
      rcases h with h | h
      · simp at h
        omega
      · simpa [declaredLen] using h
    simp [convert_datagram, hne]

/-- Claim C2, witness: a buffer declaring 5 payload bytes but carrying 0. -/
theorem convert_datagram_framing_strict_witness :
    convert_datagram 0 [0, 0, 0, 5] = Except.error ConvError.FramingError :=
  convert_datagram_framing_strict 0 [0, 0, 0, 5] (Or.inr (by decide))

/-- Claim C3: `add_records` grows `rowCount` by exactly the batch size, and
the transition is a single atomic step of the model: every notification it
emits carries the post-append total, so no observer sees a count strictly
between the pre- and post-append values. -/
theorem add_records_batch_atomic_count (m : LogRecordModel) (batch : List LogRecord) :
    (m.add_records batch).1.rowCount = m.rowCount + batch.length ∧
    ∀ s ∈ (m.add_records batch).2,
      s = toString ((m.add_records batch).1.rowCount) ++ " records" := by
  have h1 : (m.add_records batch).1.records = m.records ++ batch :=
    add_records_fst_records m batch
  constructor
  · simp [LogRecordModel.rowCount, h1]
  · intro s hs
    by_cases hb : batch.isEmpty
    · simp [LogRecordModel.add_records, hb] at hs
    · simp only [LogRecordModel.add_records, hb, if_false, Bool.false_eq_true,
        List.mem_singleton] at hs
      rw [hs]
      simp [LogRecordModel.rowCount, h1, LogRecordModel.add_records, hb]

/-- Claim C4, counterexample.  Appending one record to the empty store emits
a notification, but its payload is the formatted string "1 records", not the
new total rendered as an integer. -/
theorem stats_changed_payload_counterexample :
    (LogRecordModel.add_records ⟨[]⟩ [sampleRecord1]).2 = ["1 records"] ∧
    ∀ s ∈ (LogRecordModel.add_records ⟨[]⟩ [sampleRecord1]).2,
      s ≠ toString (LogRecordModel.add_records ⟨[]⟩ [sampleRecord1]).1.rowCount :=
  ⟨rfl, by decide⟩

/-- Claim C4, amended: after each successful non-empty `add_records`, and
before control returns to the caller, exactly one `stats_changed`
notification is emitted, whose payload is the string `"{N} records"` where
`N` is the new total record count. -/
theorem stats_changed_payload_format (m : LogRecordModel) (batch : List LogRecord)
    (h : batch ≠ []) :
    (m.add_records batch).2 =
      [toString ((m.add_records batch).1.rowCount) ++ " records"] := by
  have hb : batch.isEmpty = false := by
    cases batch with
    | nil => exact absurd rfl h
    | cons x xs => rfl
  simp [LogRecordModel.add_records, hb, LogRecordModel.rowCount]

/-- Claim C4, witness at a singleton batch on the empty store. -/
theorem stats_changed_payload_format_witness :
    (LogRecordModel.add_records ⟨[]⟩ [sampleRecord1]).2 =
      [toString ((LogRecordModel.add_records ⟨[]⟩ [sampleRecord1]).1.rowCount) ++ " records"] :=
  stats_changed_payload_format ⟨[]⟩ [sampleRecord1] (by simp)

/-- Claim C5: `add_records` with an empty batch is a no-op — the state is
returned unchanged and no notification is emitted. -/
theorem add_records_empty_noop (m : LogRecordModel) :
    m.add_records [] = (m, []) := rfl

/-- Claim C6: over any sequence of appended batches, the stored record list
is the initial content followed by the batches concatenated in call order,
so reading rows by increasing index returns records in exactly the order
they were passed to `add_records`, never reordered. -/
theorem addBatches_insertion_order (m : LogRecordModel) (bs : List (List LogRecord)) :
    (addBatches m bs).records = m.records ++ bs.flatten := by
  induction bs generalizing m with
  | nil => simp [addBatches]
  | cons b rest ih =>
    have hstep : addBatches m (b :: rest) = addBatches (m.add_records b).1 rest := rfl
    rw [hstep, ih, add_records_fst_records, List.flatten_cons, List.append_assoc]

/-- Claim C7: encoding any record `R` into the wire format (4-byte
big-endian length prefix followed by the serialized field mapping of exactly
that length) and decoding with `convert_datagram` succeeds and yields a
record whose `created`, `levelname`, `name` and `msg` equal `R`'s. -/
theorem wire_round_trip (now : Int) (R : LogRecord)
    (h : (pickleDumps (recordToObj R)).length < 4294967296) :
    convert_datagram now (frame (pickleDumps (recordToObj R))) =
      Except.ok (makeLogRecord now (recordToObj R)) ∧
    (makeLogRecord now (recordToObj R)).created = R.created ∧
    (makeLogRecord now (recordToObj R)).levelname = R.levelname ∧
    (makeLogRecord now (recordToObj R)).name = R.name ∧
    (makeLogRecord now (recordToObj R)).msg = R.msg := by
  refine ⟨?_, rfl, rfl, rfl, rfl⟩
  rw [convert_datagram_frame now _ h, pickleLoads_pickleDumps]

/-- Claim C7, witness at the concrete record `sampleRecord1`. -/
theorem wire_round_trip_witness :
    convert_datagram 0 (frame (pickleDumps (recordToObj sampleRecord1))) =
      Except.ok (makeLogRecord 0 (recordToObj sampleRecord1)) ∧
    (makeLogRecord 0 (recordToObj sampleRecord1)).created = sampleRecord1.created ∧
    (makeLogRecord 0 (recordToObj sampleRecord1)).levelname = sampleRecord1.levelname ∧
    (makeLogRecord 0 (recordToObj sampleRecord1)).name = sampleRecord1.name ∧
    (makeLogRecord 0 (recordToObj sampleRecord1)).msg = sampleRecord1.msg :=
  wire_round_trip 0 sampleRecord1 (by decide)

/-- Claim C8: reading the `created` column for display returns the stored
raw timestamp rendered through `conv_time` (`YYYY-MM-DD HH:MM:SS`, UTC,
second precision) — the stored value itself is untouched, as `data` is a
pure read — and the timestamp 1700000000 renders as
"2023-11-14 22:13:20". -/
theorem data_renders_created (m : LogRecordModel) (row : Nat) (t : Nat)
    (h : (m.records[row]?).map LogRecord.created = some (Value.int (Int.ofNat t))) :
    m.data row 0 = some (conv_time t) ∧
    conv_time 1700000000 = "2023-11-14 22:13:20" := by
  constructor
  · cases hrec : m.records[row]? with
    | none => rw [hrec] at h; simp at h
    | some r =>
      rw [hrec] at h
      simp only [Option.map_some', Option.some.injEq] at h
      simp [LogRecordModel.data, hrec, cols, getattr, display, h, Int.toNat_ofNat]
  · decide

/-- Claim C8, witness: a store holding one record created at 1700000000. -/
theorem data_renders_created_witness :
    LogRecordModel.data ⟨[sampleRecord1]⟩ 0 0 = some (conv_time 1700000000) ∧
    conv_time 1700000000 = "2023-11-14 22:13:20" :=
  data_renders_created ⟨[sampleRecord1]⟩ 0 1700000000 (by decide)

/-- Claim C9: for every store content and filter pattern, the proxy's
visible rows are exactly the stored records whose `msg` display text
contains the pattern as a case-sensitive substring, in their original
relative order; the visible row count equals the number of such records;
and the empty pattern matches every record. -/
theorem filter_view_correct (pattern : String) (m : LogRecordModel) :
    visibleRecords pattern m =
      m.records.filter (fun r => strContains (pyStr r.msg) pattern) ∧
    visibleRowCount pattern m =
      (m.records.filter (fun r => strContains (pyStr r.msg) pattern)).length ∧
    ∀ r : LogRecord, strContains (pyStr r.msg) "" = true := by
  obtain ⟨l⟩ := m
  exact ⟨(visible_eq_filter pattern l).1, (visible_eq_filter pattern l).2,
    fun r => strContains_empty (pyStr r.msg)⟩

/-- Claim C10: a correctly framed buffer whose payload deserializes to a
field mapping always decodes successfully, even when any or all of the four
mandatory fields are absent: `makeLogRecord` fills them with the runtime
defaults (`created` = current time, `levelname` = "Level None", `name` =
None, `msg` = "") and no decode error is raised. -/
theorem makeLogRecord_missing_fields_ok (now : Int) (payload : List Nat)
    (obj : List (String × Value)) (hlen : payload.length < 4294967296)
    (hobj : pickleLoads payload = some obj) :
    convert_datagram now (frame payload) = Except.ok (makeLogRecord now obj) ∧
    (List.lookup "created" obj = Option.none →
      (makeLogRecord now obj).created = Value.int now) ∧
    (List.lookup "levelname" obj = Option.none →
      (makeLogRecord now obj).levelname = Value.str "Level None") ∧
    (List.lookup "name" obj = Option.none →
      (makeLogRecord now obj).name = Value.vnone) ∧
    (List.lookup "msg" obj = Option.none →
      (makeLogRecord now obj).msg = Value.str "") := by
  refine ⟨?_, ?_, ?_, ?_, ?_⟩
  · rw [convert_datagram_frame now payload hlen, hobj]
  all_goals intro hmiss
  all_goals simp [makeLogRecord, hmiss]

/-- Claim C10, witness: the empty field mapping — all four mandatory fields
absent — still decodes, to the all-defaults record. -/
theorem makeLogRecord_missing_fields_ok_witness :
    convert_datagram 7 (frame (pickleDumps [])) = Except.ok (makeLogRecord 7 []) ∧
    (List.lookup "created" ([] : List (String × Value)) = Option.none →
      (makeLogRecord 7 []).created = Value.int 7) ∧
    (List.lookup "levelname" ([] : List (String × Value)) = Option.none →
      (makeLogRecord 7 []).levelname = Value.str "Level None") ∧
    (List.lookup "name" ([] : List (String × Value)) = Option.none →
      (makeLogRecord 7 []).name = Value.vnone) ∧
    (List.lookup "msg" ([] : List (String × Value)) = Option.none →
      (makeLogRecord 7 []).msg = Value.str "") :=
  makeLogRecord_missing_fields_ok 7 (pickleDumps []) [] (by decide) rfl

end Udplog
